import Mathlib

/-
Verification of the ChannelReadState component (per-channel membership
read-state) and of two schema/view-layer fragments of the mattermost-mobile
repository.

The repository's files contain the MY_CHANNEL table schema declaration and
the view components; the ChannelReadState operations (recordView,
recordIncomingPost, markManuallyUnread, updateRoles, isUnread) are described
by the specification only, so they are modelled here from the spec's words.
-/

/-- The per-(user, channel) membership record. Field names follow the spec's
data model; the persisted column layout is embedded separately below. -/
structure ChannelMembershipRecord where
  lastPostAt : Nat
  lastViewedAt : Nat
  manuallyUnread : Bool
  mentionsCount : Nat
  messageCount : Nat
  roles : String
deriving Repr, DecidableEq

/-- Modelled from the spec: error kinds of the ChannelReadState component,
`ChannelNotFound` and `InvalidTimestamp`. -/
inductive ReadStateError where
  | channelNotFound
  | invalidTimestamp
deriving Repr, DecidableEq

/-- Modelled from the spec: the record created when the viewer joins the
channel; the spec's scenario starts at all-zero counters and timestamps with
`manuallyUnread` false. -/
def freshRecord : ChannelMembershipRecord :=
  { lastPostAt := 0, lastViewedAt := 0, manuallyUnread := false,
    mentionsCount := 0, messageCount := 0, roles := "" }

/-- Modelled from the spec: `recordView(channelId, now)` sets
`lastViewedAt = now`, `mentionsCount = 0`, `messageCount = 0`,
`manuallyUnread = false`; fails with `InvalidTimestamp` if `now` is earlier
than the record's current `lastViewedAt`. -/
def recordView (r : ChannelMembershipRecord) (now : Nat) :
    Except ReadStateError ChannelMembershipRecord :=
  if now < r.lastViewedAt then
    .error .invalidTimestamp
  else
    .ok { r with lastViewedAt := now, mentionsCount := 0, messageCount := 0,
                 manuallyUnread := false }

/-- Modelled from the spec: `recordIncomingPost(channelId, postTimestamp,
isMention)` sets `lastPostAt = max(lastPostAt, postTimestamp)`, increments
`messageCount` by 1, and increments `mentionsCount` by 1 additionally when
`isMention` is true. -/
def recordIncomingPost (r : ChannelMembershipRecord) (postTimestamp : Nat)
    (isMention : Bool) : ChannelMembershipRecord :=
  { r with lastPostAt := max r.lastPostAt postTimestamp,
           messageCount := r.messageCount + 1,
           mentionsCount := r.mentionsCount + (if isMention then 1 else 0) }

/-- Modelled from the spec: `markManuallyUnread(channelId)` sets
`manuallyUnread = true` and does not alter counters. -/
def markManuallyUnread (r : ChannelMembershipRecord) : ChannelMembershipRecord :=
  { r with manuallyUnread := true }

/-- Modelled from the spec: the role-set replacement performed on the record
by `updateRoles`. -/
def updateRolesRecord (r : ChannelMembershipRecord) (roles : String) :
    ChannelMembershipRecord :=
  { r with roles := roles }

/-- Modelled from the spec: `isUnread(channelId)`, computed per the spec's
invariant: unread iff `lastPostAt > lastViewedAt` or `manuallyUnread`. -/
def isUnread (r : ChannelMembershipRecord) : Bool :=
  decide (r.lastViewedAt < r.lastPostAt) || r.manuallyUnread

/-- The key-value store of membership records, keyed by channel id. -/
abbrev MyChannelStore := String → Option ChannelMembershipRecord

/-- Modelled from the spec: `updateRoles(channelId, roles)` replaces the role
set of the record; fails with `ChannelNotFound` if no record exists for
`channelId`. -/
def updateRoles (store : MyChannelStore) (channelId roles : String) :
    Except ReadStateError MyChannelStore :=
  match store channelId with
  | none => .error .channelNotFound
  | some r =>
    .ok (fun c => if c = channelId then some (updateRolesRecord r roles) else store c)

/-- The operations that mutate one channel's record. -/
inductive ReadStateOp where
  | view (now : Nat)
  | post (postTimestamp : Nat) (isMention : Bool)
  | markUnread
  | setRoles (roles : String)
deriving Repr, DecidableEq

/-- Modelled from the spec: applying one operation to a record. A failing
`recordView` surfaces its error to the caller and leaves the state
unchanged. -/
def applyOp (r : ChannelMembershipRecord) : ReadStateOp → ChannelMembershipRecord
  | .view now =>
    match recordView r now with
    | .ok r2 => r2
    | .error _ => r
  | .post ts m => recordIncomingPost r ts m
  | .markUnread => markManuallyUnread r
  | .setRoles roles => updateRolesRecord r roles

/-- The record reached from a fresh record by a sequence of operations. -/
def runOps (ops : List ReadStateOp) : ChannelMembershipRecord :=
  ops.foldl applyOp freshRecord

/-- Folding a sequence of incoming posts (timestamp, isMention) over a
record. -/
def runPosts (start : ChannelMembershipRecord) (posts : List (Nat × Bool)) :
    ChannelMembershipRecord :=
  posts.foldl (fun r p => recordIncomingPost r p.1 p.2) start

/-- C1: a record is unread exactly when `lastPostAt > lastViewedAt` or
`manuallyUnread` is true. -/
theorem isUnread_iff (r : ChannelMembershipRecord) :
    isUnread r = true ↔ (r.lastViewedAt < r.lastPostAt ∨ r.manuallyUnread = true) := by
  simp [isUnread]

/-- C5: `recordView` fails with `InvalidTimestamp` exactly when `now` is
earlier than the record's current `lastViewedAt`; on success it sets
`lastViewedAt = now`, resets both counters to 0 and clears
`manuallyUnread`. -/
theorem recordView_spec (r : ChannelMembershipRecord) (now : Nat) :
    (recordView r now = .error .invalidTimestamp ↔ now < r.lastViewedAt) ∧
    (r.lastViewedAt ≤ now →
      recordView r now =
        .ok { r with lastViewedAt := now, mentionsCount := 0, messageCount := 0,
                     manuallyUnread := false }) := by
  constructor
  · unfold recordView
    split <;> simp_all
  · intro h
    unfold recordView
    rw [if_neg (by omega)]

/-- C6: applying `recordView(now)` twice in succession produces the same
state as applying it once, whether the first application succeeds or is
rejected as an `InvalidTimestamp`. -/
theorem recordView_idempotent (r : ChannelMembershipRecord) (now : Nat) :
    applyOp (applyOp r (.view now)) (.view now) = applyOp r (.view now) := by
  unfold applyOp recordView
  by_cases h : now < r.lastViewedAt
  · simp [h]
  · simp [h]

/-- One incoming post raises `lastPostAt` to the max of the old value and the
post's timestamp. -/
theorem recordIncomingPost_lastPostAt (r : ChannelMembershipRecord) (ts : Nat)
    (m : Bool) : (recordIncomingPost r ts m).lastPostAt = max r.lastPostAt ts :=
  rfl

/-- Over a fold of incoming posts, `lastPostAt` is the running maximum of the
timestamps seen, started from the initial record's `lastPostAt`. -/
theorem runPosts_lastPostAt (posts : List (Nat × Bool))
    (start : ChannelMembershipRecord) :
    (runPosts start posts).lastPostAt = (posts.map Prod.fst).foldl max start.lastPostAt := by
  induction posts generalizing start with
  | nil => rfl
  | cons p rest ih =>
    simp only [runPosts, List.foldl_cons, List.map_cons] at *
    rw [ih]
    rfl

/-- Over a fold of incoming posts, `messageCount` grows by exactly the number
of posts. -/
theorem runPosts_messageCount (posts : List (Nat × Bool))
    (start : ChannelMembershipRecord) :
    (runPosts start posts).messageCount = start.messageCount + posts.length := by
  induction posts generalizing start with
  | nil => rfl
  | cons p rest ih =>
    simp only [runPosts, List.foldl_cons, List.length_cons] at *
    rw [ih]
    simp [recordIncomingPost]
    omega

/-- Over a fold of incoming posts, `mentionsCount` grows by exactly the
number of posts flagged as mentions. -/
theorem runPosts_mentionsCount (posts : List (Nat × Bool))
    (start : ChannelMembershipRecord) :
    (runPosts start posts).mentionsCount =
      start.mentionsCount + posts.countP (fun p => p.2) := by
  induction posts generalizing start with
  | nil => rfl
  | cons p rest ih =>
    simp only [runPosts, List.foldl_cons] at *
    rw [ih, List.countP_cons]
    simp only [recordIncomingPost]
    cases h : p.2 <;> (simp [h]; try omega)

/-- C2: over any sequence of `recordIncomingPost` calls on a fresh record,
`lastPostAt` equals the maximum timestamp seen (0 for the empty sequence),
`messageCount` equals the number of calls and `mentionsCount` the number of
mention calls; each single call increments `messageCount` by 1, increments
`mentionsCount` by 1 additionally exactly when `isMention` is true, and a
call whose timestamp does not exceed the current `lastPostAt` leaves
`lastPostAt` unchanged (no regression). -/
theorem recordIncomingPost_fold_spec (posts : List (Nat × Bool)) :
    (runPosts freshRecord posts).lastPostAt = (posts.map Prod.fst).foldl max 0 ∧
    (runPosts freshRecord posts).messageCount = posts.length ∧
    (runPosts freshRecord posts).mentionsCount = posts.countP (fun p => p.2) ∧
    (∀ r ts m, (recordIncomingPost r ts m).messageCount = r.messageCount + 1 ∧
      (recordIncomingPost r ts m).mentionsCount =
        r.mentionsCount + (if m then 1 else 0) ∧
      (ts ≤ r.lastPostAt → (recordIncomingPost r ts m).lastPostAt = r.lastPostAt) ∧
      r.lastPostAt ≤ (recordIncomingPost r ts m).lastPostAt) := by
  refine ⟨?_, ?_, ?_, ?_⟩
  · rw [runPosts_lastPostAt]
    rfl
  · rw [runPosts_messageCount]
    simp [freshRecord]
  · rw [runPosts_mentionsCount]
    simp [freshRecord]
  · intro r ts m
    refine ⟨rfl, rfl, ?_, ?_⟩
    · intro h
      simp [recordIncomingPost, Nat.max_eq_left h]
    · simp [recordIncomingPost]

/-- Every operation preserves `mentionsCount <= messageCount`. -/
theorem applyOp_counters_le (r : ChannelMembershipRecord) (op : ReadStateOp)
    (h : r.mentionsCount ≤ r.messageCount) :
    (applyOp r op).mentionsCount ≤ (applyOp r op).messageCount := by
  cases op with
  | view now =>
    by_cases hv : now < r.lastViewedAt
    · simpa [applyOp, recordView, hv] using h
    · simp [applyOp, recordView, hv]
  | post ts m =>
    simp only [applyOp, recordIncomingPost]
    cases m <;> simp <;> omega
  | markUnread => exact h
  | setRoles roles => exact h

/-- `mentionsCount <= messageCount` holds after any fold of operations from a
record already satisfying it. -/
theorem foldl_counters_le (ops : List ReadStateOp) (r : ChannelMembershipRecord)
    (h : r.mentionsCount ≤ r.messageCount) :
    (ops.foldl applyOp r).mentionsCount ≤ (ops.foldl applyOp r).messageCount := by
  induction ops generalizing r with
  | nil => exact h
  | cons op rest ih =>
    exact ih (applyOp r op) (applyOp_counters_le r op h)

/-- C4: in every reachable record state, `mentionsCount <= messageCount`. -/
theorem mentions_le_messages (ops : List ReadStateOp) :
    (runOps ops).mentionsCount ≤ (runOps ops).messageCount :=
  foldl_counters_le ops freshRecord (Nat.le_refl 0)

/-- C3 counterexample: the reachable state after a single incoming post whose
timestamp does not exceed `lastViewedAt` (here a post at timestamp 0 on a
fresh record) has `lastViewedAt >= lastPostAt` and `manuallyUnread` false,
yet `messageCount` is 1, not 0: the counters do not reconcile to zero. -/
theorem counters_reconcile_cex :
    (runOps [.post 0 false]).lastPostAt ≤ (runOps [.post 0 false]).lastViewedAt ∧
    (runOps [.post 0 false]).manuallyUnread = false ∧
    (runOps [.post 0 false]).messageCount = 1 ∧
    (runOps [.post 0 false]).mentionsCount = 0 := by
  refine ⟨Nat.le_refl 0, rfl, rfl, rfl⟩

/-- Reachability restricted to in-order post delivery: every incoming post's
timestamp strictly exceeds the record's `lastViewedAt` at the moment it
arrives. -/
inductive ReachableInOrder : ChannelMembershipRecord → Prop where
  | fresh : ReachableInOrder freshRecord
  | view {r : ChannelMembershipRecord} (now : Nat) :
      ReachableInOrder r → ReachableInOrder (applyOp r (.view now))
  | post {r : ChannelMembershipRecord} (ts : Nat) (m : Bool) :
      ReachableInOrder r → r.lastViewedAt < ts →
      ReachableInOrder (applyOp r (.post ts m))
  | markUnread {r : ChannelMembershipRecord} :
      ReachableInOrder r → ReachableInOrder (applyOp r .markUnread)
  | setRoles {r : ChannelMembershipRecord} (roles : String) :
      ReachableInOrder r → ReachableInOrder (applyOp r (.setRoles roles))

/-- C3 amended: under in-order post delivery (every incoming post's timestamp
strictly exceeds the record's `lastViewedAt` when it arrives), every
reachable state with `lastViewedAt >= lastPostAt` and `manuallyUnread` false
has both counters equal to zero. -/
theorem counters_reconcile_inorder (r : ChannelMembershipRecord)
    (hr : ReachableInOrder r) (hle : r.lastPostAt ≤ r.lastViewedAt)
    (hmu : r.manuallyUnread = false) :
    r.mentionsCount = 0 ∧ r.messageCount = 0 := by
  induction hr with
  | fresh => exact ⟨rfl, rfl⟩
  | view now hrec ih =>
    rename_i s
    by_cases hv : now < s.lastViewedAt
    · simp only [applyOp, recordView, if_pos hv] at hle hmu ⊢
      exact ih hle hmu
    · simp [applyOp, recordView, hv]
  | post ts m hrec hts ih =>
    rename_i s
    exfalso
    simp only [applyOp, recordIncomingPost] at hle
    have : ts ≤ s.lastViewedAt := le_trans (le_max_right s.lastPostAt ts) hle
    omega
  | markUnread hrec ih =>
    simp [applyOp, markManuallyUnread] at hmu
  | setRoles roles hrec ih =>
    rename_i s
    simp only [applyOp, updateRolesRecord] at hle hmu ⊢
    exact ih hle hmu

/-- Witness for the amended C3: the state after viewing at time 5 is
reachable in order, satisfies the guard, and indeed has zero counters. -/
theorem counters_reconcile_inorder_witness :
    (applyOp freshRecord (.view 5)).mentionsCount = 0 ∧
    (applyOp freshRecord (.view 5)).messageCount = 0 :=
  counters_reconcile_inorder (applyOp freshRecord (.view 5))
    (ReachableInOrder.view 5 ReachableInOrder.fresh) (by decide) (by decide)

/-- C7 counterexample: from the reachable record with `lastPostAt = 200`, a
`recordView` at time 100 succeeds, yet the resulting state is already unread
with no subsequent post after time 100 and no `markManuallyUnread` call. -/
theorem read_after_view_cex :
    recordView (runOps [.post 200 false]) 100 = .ok (runOps [.post 200 false, .view 100]) ∧
    isUnread (runOps [.post 200 false, .view 100]) = true := by
  exact ⟨rfl, rfl⟩

/-- An operation that cannot set a viewed channel (viewed at time `now`) back
to unread: any view, any role update, and any post whose timestamp is at most
`now`; `markManuallyUnread` and later posts are excluded. -/
def opKeepsRead (now : Nat) : ReadStateOp → Bool
  | .post ts _ => decide (ts ≤ now)
  | .markUnread => false
  | .view _ => true
  | .setRoles _ => true

/-- States in which the viewer is caught up as of time `now`: not manually
unread, nothing posted after the last view, and last viewed at `now` or
later. -/
def caughtUpSince (now : Nat) (r : ChannelMembershipRecord) : Prop :=
  r.manuallyUnread = false ∧ r.lastPostAt ≤ r.lastViewedAt ∧ now ≤ r.lastViewedAt

/-- Every operation allowed by `opKeepsRead now` preserves `caughtUpSince
now`. -/
theorem applyOp_caughtUpSince (now : Nat) (r : ChannelMembershipRecord)
    (op : ReadStateOp) (hop : opKeepsRead now op = true)
    (h : caughtUpSince now r) : caughtUpSince now (applyOp r op) := by
  obtain ⟨hmu, hle, hnow⟩ := h
  cases op with
  | view now2 =>
    by_cases hv : now2 < r.lastViewedAt
    · exact ⟨by simpa [applyOp, recordView, hv] using hmu,
             by simpa [applyOp, recordView, hv] using hle,
             by simpa [applyOp, recordView, hv] using hnow⟩
    · refine ⟨by simp [applyOp, recordView, hv], ?_, ?_⟩
      · simp [applyOp, recordView, hv]
        omega
      · simp [applyOp, recordView, hv]
        omega
  | post ts m =>
    simp only [opKeepsRead, decide_eq_true_eq] at hop
    refine ⟨hmu, ?_, hnow⟩
    simp only [applyOp, recordIncomingPost]
    exact max_le hle (le_trans hop hnow)
  | markUnread => simp [opKeepsRead] at hop
  | setRoles roles => exact ⟨hmu, hle, hnow⟩

/-- `caughtUpSince` is preserved by any fold of allowed operations. -/
theorem foldl_caughtUpSince (now : Nat) (ops : List ReadStateOp)
    (r : ChannelMembershipRecord)
    (hops : ∀ op ∈ ops, opKeepsRead now op = true)
    (h : caughtUpSince now r) : caughtUpSince now (ops.foldl applyOp r) := by
  induction ops generalizing r with
  | nil => exact h
  | cons op rest ih =>
    exact ih (applyOp r op)
      (fun o ho => hops o (List.mem_cons_of_mem op ho))
      (applyOp_caughtUpSince now r op (hops op (List.mem_cons_self op rest)) h)

/-- C7 amended: after a successful `recordView(now)` on a record whose
`lastPostAt` does not exceed `now`, `isUnread` stays false across any
sequence of operations that contains no `markManuallyUnread` and no
`recordIncomingPost` with a timestamp greater than `now`. -/
theorem read_after_view (r r2 : ChannelMembershipRecord) (now : Nat)
    (hok : recordView r now = .ok r2) (hpost : r.lastPostAt ≤ now)
    (ops : List ReadStateOp) (hops : ∀ op ∈ ops, opKeepsRead now op = true) :
    isUnread (ops.foldl applyOp r2) = false := by
  have hr2 : caughtUpSince now r2 := by
    unfold recordView at hok
    by_cases hv : now < r.lastViewedAt
    · simp [hv] at hok
    · rw [if_neg hv] at hok
      cases hok
      exact ⟨rfl, hpost, Nat.le_refl now⟩
  obtain ⟨hmu, hle, _⟩ := foldl_caughtUpSince now ops r2 hops hr2
  simp [isUnread, hmu]
  omega

/-- Witness for the amended C7: view a fresh record at time 10, then apply an
older post, a role update and a later view; the channel stays read. -/
theorem read_after_view_witness :
    isUnread ([ReadStateOp.post 5 true, ReadStateOp.setRoles "r",
      ReadStateOp.view 20].foldl applyOp (applyOp freshRecord (.view 10))) = false :=
  read_after_view freshRecord (applyOp freshRecord (.view 10)) 10 rfl
    (by decide)
    [ReadStateOp.post 5 true, ReadStateOp.setRoles "r", ReadStateOp.view 20]
    (by decide)

/-- C8: `updateRoles` fails with `ChannelNotFound` exactly when no record
exists for the channel; on an existing record it replaces the role set and
nothing else; `markManuallyUnread` sets `manuallyUnread` true and leaves
`mentionsCount`, `messageCount`, `lastPostAt` and `lastViewedAt` unchanged. -/
theorem updateRoles_markManuallyUnread_spec (store : MyChannelStore)
    (channelId newRoles : String) (r : ChannelMembershipRecord) :
    (updateRoles store channelId newRoles = .error .channelNotFound ↔
      store channelId = none) ∧
    (store channelId = some r →
      ∃ store2, updateRoles store channelId newRoles = .ok store2 ∧
        store2 channelId = some { r with roles := newRoles }) ∧
    (markManuallyUnread r).manuallyUnread = true ∧
    (markManuallyUnread r).mentionsCount = r.mentionsCount ∧
    (markManuallyUnread r).messageCount = r.messageCount ∧
    (markManuallyUnread r).lastPostAt = r.lastPostAt ∧
    (markManuallyUnread r).lastViewedAt = r.lastViewedAt := by
  refine ⟨?_, ?_, rfl, rfl, rfl, rfl, rfl⟩
  · unfold updateRoles
    cases h : store channelId <;> simp [h]
  · intro h
    refine ⟨fun c => if c = channelId then some (updateRolesRecord r newRoles)
      else store c, ?_, ?_⟩
    · unfold updateRoles
      rw [h]
    · simp [updateRolesRecord]

/-- A column of a WatermelonDB table schema: its name and its declared
column type. -/
structure TableColumn where
  name : String
  type : String
deriving Repr, DecidableEq

/-- The columns of the MY_CHANNEL table schema, exactly as declared by the
`tableSchema` call in the database model file. -/
def myChannelSchemaColumns : List TableColumn :=
  [{ name := "last_post_at", type := "number" },
   { name := "last_viewed_at", type := "number" },
   { name := "manually_unread", type := "boolean" },
   { name := "mentions_count", type := "number" },
   { name := "message_count", type := "number" },
   { name := "roles", type := "string" },
   { name := "viewed_at", type := "number" }]

/-- The six column names the spec's persisted field layout lists. -/
def specifiedColumnNames : List String :=
  ["last_post_at", "last_viewed_at", "manually_unread", "mentions_count",
   "message_count", "roles"]

/-- C9 counterexample: the declared MY_CHANNEL schema does not consist of
exactly the spec's six fields: it has seven columns, and its column
`viewed_at` is not among the six listed names. -/
theorem myChannel_schema_cex :
    (myChannelSchemaColumns.all
      (fun c => specifiedColumnNames.contains c.name)) = false ∧
    myChannelSchemaColumns.length = 7 ∧
    (myChannelSchemaColumns.map TableColumn.name).contains "viewed_at" = true := by
  refine ⟨by decide, rfl, by decide⟩

/-- C9 amended: the MY_CHANNEL table consists of exactly seven columns: the
spec's six — last_post_at (number), last_viewed_at (number), manually_unread
(boolean), mentions_count (number), message_count (number), roles (string) —
plus viewed_at (number). -/
theorem myChannel_schema_columns :
    myChannelSchemaColumns.map (fun c => (c.name, c.type)) =
      [("last_post_at", "number"), ("last_viewed_at", "number"),
       ("manually_unread", "boolean"), ("mentions_count", "number"),
       ("message_count", "number"), ("roles", "string"),
       ("viewed_at", "number")] := by
  rfl

/-- The property keys every plain object literal inherits from
`Object.prototype` (ES2023 section 20.1.3 with the Annex B getter/setter
helpers; all are present in the JS engines React Native embeds). Each of
their values is a function, or for `__proto__` an object — never a string
and always truthy. -/
def objectPrototypeKeys : List String :=
  ["constructor", "hasOwnProperty", "isPrototypeOf", "propertyIsEnumerable",
   "toLocaleString", "toString", "valueOf", "__proto__", "__defineGetter__",
   "__defineSetter__", "__lookupGetter__", "__lookupSetter__"]

/-- The outcome of a JS property read on the `services` object literal: an
own property's string value, a property inherited from `Object.prototype`
(a function or object, never a string), or `undefined`. -/
inductive JsLookupResult where
  | undefined
  | ownString (s : String)
  | inherited (key : String)
deriving Repr, DecidableEq

/-- JS truthiness of the looked-up property value: `undefined` is falsy, a
string is truthy exactly when non-empty, and every value inherited from
`Object.prototype` is a function or object, hence truthy. -/
def jsTruthy : JsLookupResult → Bool
  | .undefined => false
  | .ownString s => s != ""
  | .inherited _ => true

/-- The `services` lookup of the `EmailField` component, read the way JS
reads the property access on the object literal: the five own keys first,
then the `Object.prototype` chain, else `undefined`. -/
def emailFieldServices (authService : String) : JsLookupResult :=
  if authService = "gitlab" then .ownString "GitLab"
  else if authService = "google" then .ownString "Google Apps"
  else if authService = "office365" then .ownString "Office 365"
  else if authService = "ldap" then .ownString "AD/LDAP"
  else if authService = "saml" then .ownString "SAML"
  else if authService ∈ objectPrototypeKeys then .inherited authService
  else .undefined

/-- What `EmailField` passes to its `Field` child: the description message
id, the default-message template that id selects, and the input value. -/
structure EmailFieldRendered where
  descriptionId : String
  descriptionTemplate : String
  value : String
deriving Repr, DecidableEq

/-- The auth-service description template of `EmailField`. -/
def authServiceTemplate : String :=
  "Login occurs through {service}. Email cannot be updated. Email address used for notifications is {email}."

/-- The description template shown when the `services` lookup is falsy. -/
def webClientMessage : String :=
  "Email must be updated using a web client or desktop application."

/-- The `EmailField` component: which description it renders for a given
`authService` — decided by the source's truthiness test on the `services`
lookup — and the value it passes to the email input. -/
def emailField (authService email : String) : EmailFieldRendered :=
  if jsTruthy (emailFieldServices authService) then
    { descriptionId := "user.edit_profile.email.auth_service",
      descriptionTemplate := authServiceTemplate,
      value := email }
  else
    { descriptionId := "user.edit_profile.email.web_client",
      descriptionTemplate := webClientMessage,
      value := email }

/-- C10 counterexample: `toString` is none of the five service keys, yet
`services["toString"]` finds the truthy function inherited from
`Object.prototype`, so the component renders the auth-service message where
the claim asserts the web-client message. -/
theorem emailField_cex :
    (["gitlab", "google", "office365", "ldap", "saml"].contains "toString") = false ∧
    emailFieldServices "toString" = .inherited "toString" ∧
    (emailField "toString" "user@example.com").descriptionId =
      "user.edit_profile.email.auth_service" ∧
    (emailField "toString" "user@example.com").descriptionTemplate =
      authServiceTemplate := by
  refine ⟨by decide, by decide, rfl, rfl⟩

/-- C10 amended: the email input's value is always the `email` prop, and the
field description is the auth-service login message exactly when
`authService` is one of gitlab, google, office365, ldap, saml or a property
name the `services` object literal inherits from `Object.prototype`, and the
web-client message for every other `authService` (the empty string
included). -/
theorem emailField_spec (authService email : String) :
    (emailField authService email).value = email ∧
    (if authService ∈ ["gitlab", "google", "office365", "ldap", "saml"] ∨
        authService ∈ objectPrototypeKeys then
      emailField authService email =
        { descriptionId := "user.edit_profile.email.auth_service",
          descriptionTemplate := authServiceTemplate, value := email }
    else
      emailField authService email =
        { descriptionId := "user.edit_profile.email.web_client",
          descriptionTemplate := webClientMessage, value := email }) := by
  constructor
  · unfold emailField
    split <;> rfl
  · by_cases hmem : authService ∈ ["gitlab", "google", "office365", "ldap", "saml"] ∨
        authService ∈ objectPrototypeKeys
    · rw [if_pos hmem]
      rcases hmem with hm | hp
      · simp only [List.mem_cons, List.not_mem_nil, or_false] at hm
        rcases hm with rfl | rfl | rfl | rfl | rfl <;> rfl
      · simp only [objectPrototypeKeys, List.mem_cons, List.not_mem_nil,
          or_false] at hp
        rcases hp with rfl | rfl | rfl | rfl | rfl | rfl | rfl | rfl | rfl |
          rfl | rfl | rfl <;> rfl
    · rw [if_neg hmem]
      push_neg at hmem
      obtain ⟨h5, hp⟩ := hmem
      simp only [List.mem_cons, List.not_mem_nil, or_false] at h5
      push_neg at h5
      obtain ⟨h1, h2, h3, h4, h5s⟩ := h5
      simp [emailField, emailFieldServices, jsTruthy, h1, h2, h3, h4, h5s, hp]
